import Mathlib

/-!
Verification of the adaptive interview orchestration core
(`candidate_profiler.py`, `adaptive_interview_manager.py`, `config.py`)
against its natural-language specification.

The Python code is shallowly embedded: floats become `ℚ`, dicts keyed by
strings become functions `String → _` or association lists, `None`/exception
outcomes become `Option`, and stateful methods become explicit
state-passing functions.  Each definition carries a comment pointing at the
source lines it embeds.
-/

namespace AIHR

/-! ## Configuration constants (`config.py`, class `AdaptiveInterviewConfig`) -/

/-- Source `config.py` line 46: `MAX_INTERVIEW_TIME_MINUTES = 15`. -/
def MAX_INTERVIEW_TIME_MINUTES : ℕ := 15

/-- Source `config.py` line 48: `MAX_QUESTIONS_PER_INTERVIEW = 15`. -/
def MAX_QUESTIONS_PER_INTERVIEW : ℕ := 15

/-- Source `config.py` line 114: `DIFFICULTY_ADAPTATION['weak_answer_threshold'] = 4.0`. -/
def weak_answer_threshold : ℚ := 4

/-- Source `config.py` line 115: `DIFFICULTY_ADAPTATION['strong_answer_threshold'] = 8.0`. -/
def strong_answer_threshold : ℚ := 8

/-- Source `config.py` line 112: `DIFFICULTY_ADAPTATION['consecutive_weak_threshold'] = 2`. -/
def consecutive_weak_threshold : ℕ := 2

/-- Source `config.py` line 113: `DIFFICULTY_ADAPTATION['consecutive_strong_threshold'] = 2`. -/
def consecutive_strong_threshold : ℕ := 2

/-- Source `config.py` lines 270-275: `REPORTING_CONFIG['recommendation_thresholds']`. -/
def threshold_strong_hire : ℤ := 80

/-- Source `config.py` line 272: `'hire': 65`. -/
def threshold_hire : ℤ := 65

/-- Source `config.py` line 273: `'conditional_hire': 50`. -/
def threshold_conditional_hire : ℤ := 50

/-- Source `candidate_profiler.py` line 71: `self.failure_threshold = 3.0`. -/
def failure_threshold : ℚ := 3

/-- Source `candidate_profiler.py` line 72: `self.success_threshold = 8.0`. -/
def success_threshold : ℚ := 8

/-! ## C1: running averages (`candidate_profiler.py` lines 106-172) -/

/-- The three per-answer scores read by `_update_average_scores` from the
oracle analysis dict (`technical_score`, `communication_score`,
`confidence_score`). -/
structure AnswerScores where
  technical_score : ℚ
  communication_score : ℚ
  confidence_score : ℚ
deriving DecidableEq

/-- The slice of `CandidateProfile` state that `_update_average_scores`
reads and writes: `total_questions` and the three running averages
(initial values `0`, `0.0`, `0.0`, `0.0`; `candidate_profiler.py`
lines 28-31). -/
structure AvgScores where
  total_questions : ℕ
  avg_technical_score : ℚ
  avg_communication_score : ℚ
  avg_confidence_score : ℚ
deriving DecidableEq

/-- Source `candidate_profiler.py` lines 151-172, `_update_average_scores`:
`weight = 1.0 / total_questions`; if this is the first answer the averages
are set directly, otherwise `avg = avg * (1 - weight) + x * weight`. -/
def update_average_scores (p : AvgScores) (a : AnswerScores) : AvgScores :=
  let weight : ℚ := 1 / (p.total_questions : ℚ)
  if p.total_questions = 1 then
    { p with
      avg_technical_score := a.technical_score
      avg_communication_score := a.communication_score
      avg_confidence_score := a.confidence_score }
  else
    { p with
      avg_technical_score :=
        p.avg_technical_score * (1 - weight) + a.technical_score * weight
      avg_communication_score :=
        p.avg_communication_score * (1 - weight) + a.communication_score * weight
      avg_confidence_score :=
        p.avg_confidence_score * (1 - weight) + a.confidence_score * weight }

/-- Source `candidate_profiler.py` lines 106-116, `update_from_answer`:
`total_questions += 1` (line 111) and then `_update_average_scores(analysis)`
(line 116).  Only the average-score slice of the update is modelled here. -/
def update_from_answer_scores (p : AvgScores) (a : AnswerScores) : AvgScores :=
  update_average_scores { p with total_questions := p.total_questions + 1 } a

/-- Process a whole sequence of answers through `update_from_answer`,
starting from the freshly initialised profile (`total_questions = 0`, all
averages `0.0`). -/
def process_answers (xs : List AnswerScores) : AvgScores :=
  xs.foldl update_from_answer_scores ⟨0, 0, 0, 0⟩


/-! ## C4: per-topic failure tracking (`candidate_profiler.py` lines 132-149) -/

/-- The slice of profiler state read and written by `_track_area_performance`:
the per-area consecutive-failure counters (`defaultdict(int)`,
`candidate_profiler.py` line 74) and the `failed_areas` / `strong_areas` sets
of the profile (lines 42-43), modelled as membership functions. -/
structure AreaTracking where
  consecutive_failures_in_area : String → ℕ
  failed_areas : String → Bool
  strong_areas : String → Bool

/-- Fresh profiler state: all counters `0`, both sets empty. -/
def initial_area_tracking : AreaTracking :=
  ⟨fun _ => 0, fun _ => false, fun _ => false⟩

/-- Source `candidate_profiler.py` lines 132-149, `_track_area_performance`:
a score `≤ failure_threshold` increments the area counter and, once the
counter reaches 2, adds the area to `failed_areas`; a score
`≥ success_threshold` resets the counter to 0 and adds the area to
`strong_areas`; any other score decrements a positive counter by one. -/
def track_area_performance (st : AreaTracking) (question_area : String)
    (tech_score : ℚ) : AreaTracking :=
  if tech_score ≤ failure_threshold then
    let c := st.consecutive_failures_in_area question_area + 1
    { st with
      consecutive_failures_in_area :=
        fun a => if a = question_area then c else st.consecutive_failures_in_area a
      failed_areas :=
        if 2 ≤ c then
          fun a => if a = question_area then true else st.failed_areas a
        else st.failed_areas }
  else if success_threshold ≤ tech_score then
    { st with
      consecutive_failures_in_area :=
        fun a => if a = question_area then 0 else st.consecutive_failures_in_area a
      strong_areas :=
        fun a => if a = question_area then true else st.strong_areas a }
  else
    if 0 < st.consecutive_failures_in_area question_area then
      { st with
        consecutive_failures_in_area :=
          fun a => if a = question_area then st.consecutive_failures_in_area question_area - 1
                   else st.consecutive_failures_in_area a }
    else st

/-- Record a whole sequence of technical scores for one topic `t`, starting
from the fresh profiler state (each call to `update_from_answer` forwards the
answer score to `_track_area_performance`, line 120). -/
def process_area_scores (t : String) (xs : List ℚ) : AreaTracking :=
  xs.foldl (fun st x => track_area_performance st t x) initial_area_tracking

/-- Specification-side predicate (from the spec text of C4): the score
sequence contains, somewhere, two consecutive scores at or below the
failure threshold. -/
def has_two_consecutive_low_scores : List ℚ → Bool
  | x :: y :: rest =>
      (decide (x ≤ failure_threshold) && decide (y ≤ failure_threshold))
        || has_two_consecutive_low_scores (y :: rest)
  | _ => false

/-- Specification-side helper: what failure means for the remaining scores
when one failure has just been recorded (counter at 1): the next score at or
below the threshold fails the topic; otherwise the counter returns to 0 and
the tail is judged by `has_two_consecutive_low_scores`. -/
def low_after_one_failure : List ℚ → Bool
  | [] => false
  | y :: r =>
      if y ≤ failure_threshold then true else has_two_consecutive_low_scores r


/-! ## C5: repetition detection (`adaptive_interview_manager.py` lines 109-181) -/

/-- Source `adaptive_interview_manager.py` lines 31-39, `QuestionRecord`:
one record per asked question.  The wall-clock `timestamp` field is not
modelled; the keyword set extracted by `_extract_keywords` (lines 173-181,
a lower-casing, stop-word-filtering word tokenisation) is stored as a
`Finset String` exactly as the source stores a python `set`. -/
structure QuestionRecord where
  question_text : String
  topic_area : String
  keywords : Finset String
  phase : String
  difficulty : String

/-- Source `adaptive_interview_manager.py` lines 109-115, `RepetitionDetector`
state: the question history, the per-topic frequency `Counter`, and the
failed-topic set. -/
structure RepetitionDetector where
  question_history : List QuestionRecord
  topic_frequency : String → ℕ
  failed_topics : String → Bool

/-- Python slice `l[-3:]`: the at-most-three last elements, in order. -/
def last_three {α : Type} (l : List α) : List α := l.drop (l.length - 3)

/-- Source `adaptive_interview_manager.py` lines 137-152, `is_repetitive`:
true if the proposed topic has already been asked 3 times; otherwise true
when some record among the 3 most recent shares at least 2 keywords with
the proposed question and the overlap ratio (shared ÷ proposed count)
exceeds 0.6.  The regex-based `_extract_keywords` is abstracted as the
parameter `extract_keywords`; the logic is quantified over it. -/
def is_repetitive (extract_keywords : String → Finset String)
    (d : RepetitionDetector) (proposed_question proposed_topic : String) : Bool :=
  if 3 ≤ d.topic_frequency proposed_topic then true
  else
    let proposed_keywords := extract_keywords proposed_question
    (last_three d.question_history).any fun record =>
      let common_keywords := proposed_keywords ∩ record.keywords
      decide (2 ≤ common_keywords.card) && decide (0 < proposed_keywords.card)
        && decide ((0.6 : ℚ) < (common_keywords.card : ℚ) / (proposed_keywords.card : ℚ))


/-! ## C6: final recommendation (`adaptive_interview_manager.py` lines 758-815) -/

/-- Source `adaptive_interview_manager.py` lines 778-793 and 810-814,
`get_final_report`: the decision chain over the overall score
(`round((avg_technical + avg_communication)/2*10)`, an integer) and the
count of distinct red flags, against `recommendation_thresholds`, plus the
`confidence_level` label computed from the red-flag count alone.  Returns
`(decision, confidence_level)`. -/
def final_recommendation (overall_score : ℤ) (red_flags_count : ℕ) : String × String :=
  let decision :=
    if threshold_strong_hire ≤ overall_score ∧ red_flags_count = 0 then "strong_hire"
    else if threshold_hire ≤ overall_score ∧ red_flags_count ≤ 1 then "hire"
    else if threshold_conditional_hire ≤ overall_score ∧ red_flags_count ≤ 2 then
      "conditional_hire"
    else "no_hire"
  let confidence_level :=
    if red_flags_count = 0 then "high"
    else if red_flags_count ≤ 2 then "medium"
    else "low"
  (decision, confidence_level)

/-! ## C7: difficulty adaptation (`adaptive_interview_manager.py` lines 555-578,
`candidate_profiler.py` lines 281-296) -/

/-- The slice of orchestrator/profiler state used by `_adapt_difficulty`:
the two consecutive counters, the current difficulty, and the profile
running technical average read by `should_adjust_difficulty`. -/
structure DifficultyState where
  consecutive_weak_answers : ℕ
  consecutive_strong_answers : ℕ
  current_difficulty : String
  avg_technical_score : ℚ
deriving DecidableEq

/-- Source `candidate_profiler.py` lines 281-296, `should_adjust_difficulty`
(the `adaptation_history` appends are bookkeeping and not modelled):
average below the weak threshold recommends `easy` (unless already easy),
above the strong threshold `hard`, in between `medium`, else no change. -/
def should_adjust_difficulty (avg_technical_score : ℚ)
    (current_difficulty : String) : String :=
  if avg_technical_score < weak_answer_threshold ∧ current_difficulty ≠ "easy" then
    "easy"
  else if strong_answer_threshold < avg_technical_score ∧ current_difficulty ≠ "hard" then
    "hard"
  else if weak_answer_threshold ≤ avg_technical_score
      ∧ avg_technical_score ≤ strong_answer_threshold
      ∧ current_difficulty ≠ "medium" then
    "medium"
  else current_difficulty

/-- Source `adaptive_interview_manager.py` lines 555-578, `_adapt_difficulty`:
update the consecutive counters from the answer score (each branch resets
the opposite counter), then either force `easy`/`hard` from a counter at
its threshold (when the difficulty is not already that value) or fall back
to the profiler recommendation.  `tech_score` is
`analysis.get('technical_score', 5)`. -/
def adapt_difficulty (st : DifficultyState) (tech_score : ℚ) : DifficultyState :=
  let st1 :=
    if tech_score ≤ weak_answer_threshold then
      { st with
        consecutive_weak_answers := st.consecutive_weak_answers + 1
        consecutive_strong_answers := 0 }
    else if strong_answer_threshold ≤ tech_score then
      { st with
        consecutive_strong_answers := st.consecutive_strong_answers + 1
        consecutive_weak_answers := 0 }
    else
      { st with consecutive_weak_answers := 0, consecutive_strong_answers := 0 }
  let recommended_difficulty :=
    should_adjust_difficulty st1.avg_technical_score st1.current_difficulty
  if consecutive_weak_threshold ≤ st1.consecutive_weak_answers
      ∧ st1.current_difficulty ≠ "easy" then
    { st1 with current_difficulty := "easy" }
  else if consecutive_strong_threshold ≤ st1.consecutive_strong_answers
      ∧ st1.current_difficulty ≠ "hard" then
    { st1 with current_difficulty := "hard" }
  else
    { st1 with current_difficulty := recommended_difficulty }


/-! ## Interview phases and time status (`adaptive_interview_manager.py`
lines 22-29 and 52-80) -/

/-- Source `adaptive_interview_manager.py` lines 22-29: the `InterviewPhase`
enum. -/
inductive InterviewPhase
  | exploration
  | validation
  | stress_test
  | soft_skills
  | wrap_up
  | finished
deriving DecidableEq

/-- The `.value` string of each enum member. -/
def InterviewPhase.value : InterviewPhase → String
  | .exploration => "exploration"
  | .validation => "validation"
  | .stress_test => "stress_test"
  | .soft_skills => "soft_skills"
  | .wrap_up => "wrap_up"
  | .finished => "finished"

/-- Python `InterviewPhase(name)`: the member with that value, or a
`ValueError` (modelled as `none`) for any other string. -/
def phase_of_value (s : String) : Option InterviewPhase :=
  if s = "exploration" then some .exploration
  else if s = "validation" then some .validation
  else if s = "stress_test" then some .stress_test
  else if s = "soft_skills" then some .soft_skills
  else if s = "wrap_up" then some .wrap_up
  else if s = "finished" then some .finished
  else none

/-- Source `adaptive_interview_manager.py` lines 63-66,
`TimeManager.get_remaining_minutes`: `max(0, max_minutes - elapsed)`, with
the configured ceiling `MAX_INTERVIEW_TIME_MINUTES` (manager line 265);
natural subtraction models the `max(0, ·)` floor. -/
def get_remaining_minutes (elapsed_minutes : ℕ) : ℕ :=
  MAX_INTERVIEW_TIME_MINUTES - elapsed_minutes

/-- Source `adaptive_interview_manager.py` lines 68-77,
`TimeManager.get_time_status`: bucket the remaining minutes through the
fixed `<3` / `<7` / `<12` thresholds. -/
def get_time_status (remaining_minutes : ℕ) : String :=
  if remaining_minutes < 3 then "critical_time"
  else if remaining_minutes < 7 then "need_wrap_up"
  else if remaining_minutes < 12 then "need_acceleration"
  else "on_track"

/-- Source `adaptive_interview_manager.py` lines 79-80,
`TimeManager.should_end_interview`: `remaining <= 0`. -/
def time_manager_should_end_interview (elapsed_minutes : ℕ) : Bool :=
  get_remaining_minutes elapsed_minutes = 0

/-! ## C2: session termination (`adaptive_interview_manager.py` lines 817-848,
`config.py` lines 146-152) -/

/-- Source `config.py` line 147: `INTERVIEW_COMPLETION_CRITERIA['max_time_exceeded']`. -/
def criteria_max_time_exceeded : Bool := true

/-- Source `config.py` line 148: `'max_questions_reached': True`. -/
def criteria_max_questions_reached : Bool := true

/-- Source `config.py` line 149: `'all_phases_completed': True`. -/
def criteria_all_phases_completed : Bool := true

/-- Source `config.py` line 150: `'critical_red_flags_count': 8`
(read with `.get`, so a missing key would be `none`). -/
def criteria_critical_red_flags_count : Option ℕ := some 8

/-- Python truthiness test
`analysis.get('adaptation_needed') and analysis['adaptation_needed'] != 'none'`:
the field is absent/`None` (`none`), or present and both nonempty and not
the literal `'none'`. -/
def adaptation_requested : Option String → Bool
  | none => false
  | some v => !(v == "") && !(v == "none")

/-- The manager state read by `should_end_interview`: elapsed minutes (for
the owned `TimeManager`), `total_questions`, `current_phase`, the
deduplicated `profile.red_flags` list, and the `adaptation_needed` field of
the last entry of `detailed_qa_history` (`none` when the history is empty
or the field is missing). -/
structure ManagerEndState where
  elapsed_minutes : ℕ
  total_questions : ℕ
  current_phase : InterviewPhase
  red_flags : List String
  last_adaptation_needed : Option String

set_option linter.unusedVariables false in
/-- Source `adaptive_interview_manager.py` lines 817-848,
`should_end_interview(max_time_minutes=25, max_questions=12)`.  The two
parameters are accepted (with those defaults) but never read: the body
checks the owned `TimeManager` against `MAX_INTERVIEW_TIME_MINUTES` and the
question count against `AdaptiveInterviewConfig.MAX_QUESTIONS_PER_INTERVIEW`
(line 830), then the `finished` phase, then the red-flag limit with the
one-more-turn override when the last oracle analysis requested adaptation. -/
def should_end_interview (max_time_minutes max_questions : ℕ)
    (st : ManagerEndState) : Bool :=
  if criteria_max_time_exceeded
      && time_manager_should_end_interview st.elapsed_minutes then true
  else if criteria_max_questions_reached
      && decide (MAX_QUESTIONS_PER_INTERVIEW ≤ st.total_questions) then true
  else if criteria_all_phases_completed
      && decide (st.current_phase = InterviewPhase.finished) then true
  else
    match criteria_critical_red_flags_count with
    | some red_flag_limit =>
        if red_flag_limit ≤ st.red_flags.length then
          if adaptation_requested st.last_adaptation_needed then false else true
        else false
    | none => false

/-! ## C3: phase transitions on a processed answer
(`adaptive_interview_manager.py` lines 483-553, `candidate_profiler.py`
lines 249-279, `config.py` lines 120-143) -/

/-- Source `config.py` lines 121-125: `exploration_to_validation` rule. -/
def rule_exploration_min_questions : ℕ := 2

/-- Source `config.py` line 124: `'fallback_after_questions': 4`. -/
def rule_exploration_fallback_after_questions : ℕ := 4

/-- Source `config.py` line 127: `validation_to_stress_test.min_avg_score = 6.0`. -/
def rule_stress_min_avg_score : ℚ := 6

/-- Source `config.py` line 128: `validation_to_stress_test.min_questions = 2`. -/
def rule_stress_min_questions : ℕ := 2

/-- Source `config.py` line 133: `validation_to_soft_skills.min_questions = 3`. -/
def rule_validation_to_soft_min_questions : ℕ := 3

/-- Source `config.py` line 136: `stress_test_to_soft_skills.min_questions = 1`. -/
def rule_stress_to_soft_min_questions : ℕ := 1

/-- Source `config.py` line 140: `soft_skills_to_wrap_up.min_questions = 2`. -/
def rule_soft_to_wrap_min_questions : ℕ := 2

/-- Source `candidate_profiler.py` lines 249-279, `get_recommended_phase`:
the advisory next phase from the current phase name, the question count in
the phase, and the profile (technical level, running technical average). -/
def get_recommended_phase (current_phase : String) (questions_in_phase : ℕ)
    (technical_level : String) (avg_technical_score : ℚ) : String :=
  if current_phase = "exploration" then
    if (rule_exploration_min_questions ≤ questions_in_phase
          ∧ technical_level ≠ "unknown")
        ∨ rule_exploration_fallback_after_questions ≤ questions_in_phase then
      "validation"
    else current_phase
  else if current_phase = "validation" then
    if rule_stress_min_avg_score ≤ avg_technical_score
        ∧ rule_stress_min_questions ≤ questions_in_phase then
      "stress_test"
    else if rule_validation_to_soft_min_questions ≤ questions_in_phase then
      "soft_skills"
    else current_phase
  else if current_phase = "stress_test" then
    if rule_stress_to_soft_min_questions ≤ questions_in_phase then
      "soft_skills"
    else current_phase
  else if current_phase = "soft_skills" then
    if rule_soft_to_wrap_min_questions ≤ questions_in_phase then
      "wrap_up"
    else current_phase
  else if current_phase = "wrap_up" then "finished"
  else current_phase

/-- The manager state consulted by the phase-transition logic of one
answer-processing step. -/
structure PhaseTransitionState where
  current_phase : InterviewPhase
  elapsed_minutes : ℕ
  questions_in_phase : InterviewPhase → ℕ
  technical_level : String
  avg_technical_score : ℚ

/-- The `time_management` field of an oracle response: a dict (with an
optional `status` key) or a raw non-dict value. -/
inductive TimeManagementField
  | tm_dict (status : Option String)
  | tm_raw (status_value : String)

/-- The oracle-response fields consulted by
`_check_enhanced_phase_transition`: `previous_answer_analysis.adaptation_needed`,
`interview_status`, and `time_management`.  `none` models a missing field. -/
structure OracleTransitionSignals where
  adaptation_needed : Option String
  interview_status : Option String
  time_management : Option TimeManagementField

/-- Source `adaptive_interview_manager.py` lines 610-621,
`_transition_to_phase`: sets the current phase (the phase-history append
and start-timestamp reset are bookkeeping that does not affect the phase). -/
def transition_to_phase (st : PhaseTransitionState)
    (new_phase : InterviewPhase) : PhaseTransitionState :=
  { st with current_phase := new_phase }

/-- Source `adaptive_interview_manager.py` lines 501-518,
`_adapt_to_time_constraints`: on `critical_time`, force `wrap_up` unless
already in `wrap_up`/`finished`; on `need_wrap_up`, skip from `stress_test`
to `soft_skills`; otherwise only log. -/
def adapt_to_time_constraints (st : PhaseTransitionState) : PhaseTransitionState :=
  let time_status := get_time_status (get_remaining_minutes st.elapsed_minutes)
  if time_status = "critical_time" then
    if st.current_phase ≠ InterviewPhase.wrap_up
        ∧ st.current_phase ≠ InterviewPhase.finished then
      transition_to_phase st InterviewPhase.wrap_up
    else st
  else if time_status = "need_wrap_up" then
    if st.current_phase = InterviewPhase.stress_test then
      transition_to_phase st InterviewPhase.soft_skills
    else st
  else st

/-- Source `adaptive_interview_manager.py` lines 537-553: the tail of
`_check_enhanced_phase_transition` after the recommended-phase check — the
oracle adaptation veto, then `interview_status == 'finished'` and the
oracle `time_management` status. -/
def check_transition_status_signals (st : PhaseTransitionState)
    (resp : OracleTransitionSignals) : PhaseTransitionState :=
  if adaptation_requested resp.adaptation_needed then st
  else
    let interview_status := resp.interview_status.getD "continuing"
    let time_status :=
      match resp.time_management with
      | none => "continue"
      | some (TimeManagementField.tm_dict status) => status.getD "continue"
      | some (TimeManagementField.tm_raw v) => v
    if interview_status = "finished" then
      transition_to_phase st InterviewPhase.finished
    else if time_status = "need_wrap_up" ∨ time_status = "critical_time" then
      transition_to_phase st InterviewPhase.wrap_up
    else st

/-- Source `adaptive_interview_manager.py` lines 520-553,
`_check_enhanced_phase_transition`: first the recommended-phase transition
(with the `ValueError` of an unknown name falling through to the remaining
checks), then the status signals. -/
def check_enhanced_phase_transition (st : PhaseTransitionState)
    (resp : OracleTransitionSignals) : PhaseTransitionState :=
  let current_phase_name := st.current_phase.value
  let questions_in_phase := st.questions_in_phase st.current_phase
  let recommended_phase_name :=
    get_recommended_phase current_phase_name questions_in_phase
      st.technical_level st.avg_technical_score
  if recommended_phase_name ≠ current_phase_name then
    match phase_of_value recommended_phase_name with
    | some new_phase => transition_to_phase st new_phase
    | none => check_transition_status_signals st resp
  else check_transition_status_signals st resp

/-- Source `adaptive_interview_manager.py` lines 483-499,
`_apply_enhanced_adaptive_logic`, restricted to the phase-affecting calls:
`_adapt_difficulty` never touches the phase, then
`_adapt_to_time_constraints`, then `_check_enhanced_phase_transition`. -/
def apply_phase_adaptation_step (st : PhaseTransitionState)
    (resp : OracleTransitionSignals) : PhaseTransitionState :=
  check_enhanced_phase_transition (adapt_to_time_constraints st) resp


/-! ## C9: per-phase time strategy (`adaptive_interview_manager.py`
lines 82-107, `config.py` lines 57-88) -/

/-- Source `config.py` lines 57-88: one `PHASE_SETTINGS` entry. -/
structure PhaseSettingsEntry where
  min_questions : ℕ
  max_questions : ℕ
  target_duration_minutes : ℕ
  preferred_difficulty : String

/-- Source `config.py` lines 57-88: the ordered `PHASE_SETTINGS` table.
Its keys are the five non-terminal phases; `finished` has no entry. -/
def PHASE_SETTINGS : List (String × PhaseSettingsEntry) :=
  [("exploration", ⟨2, 4, 5, "medium"⟩),
   ("validation", ⟨2, 5, 8, "medium"⟩),
   ("stress_test", ⟨1, 3, 6, "hard"⟩),
   ("soft_skills", ⟨2, 4, 5, "medium"⟩),
   ("wrap_up", ⟨1, 2, 1, "easy"⟩)]

/-- Source `adaptive_interview_manager.py` line 101 text. -/
def strategy_text_critical : String :=
  "КРИТИЧЕСКАЯ НЕХВАТКА ВРЕМЕНИ! Задай 1-2 самых важных вопроса и переходи к следующей фазе."

/-- Source `adaptive_interview_manager.py` line 103 text. -/
def strategy_text_accelerate : String :=
  "Нужно ускориться. Сфокусируйся на ключевых вопросах, избегай углублений."

/-- Source `adaptive_interview_manager.py` line 105 text. -/
def strategy_text_ample : String :=
  "Времени достаточно. Можно углубиться в детали или задать дополнительные вопросы."

/-- Source `adaptive_interview_manager.py` line 107 text. -/
def strategy_text_on_track : String :=
  "Идем по графику. Следуй стандартному плану фазы."

/-- Source `adaptive_interview_manager.py` lines 92-96: the sum of
configured `target_duration_minutes` over the phases whose position in the
key order is at least the current phase index (the keys are distinct, so
`list(keys).index(phase)` is each entry position). -/
def planned_remaining_time (current_phase_index : ℕ) : ℕ :=
  ((PHASE_SETTINGS.enum.filter (fun p => current_phase_index ≤ p.1)).map
    (fun p => p.2.2.target_duration_minutes)).sum

set_option linter.unusedVariables false in
/-- Source `adaptive_interview_manager.py` lines 82-107,
`get_time_strategy_text_for_phase`.  `list(...keys()).index(phase_name)`
raises `ValueError` for a name outside the table — modelled as `none`.
`phase_history` carries the `duration` values of completed phases; the sum
`time_spent_on_other_phases` computed from it on line 89 is never used.
The pressure ratio is remaining minutes over `max(planned, 1)`. -/
def get_time_strategy_text_for_phase (phase_name : String)
    (phase_history : List ℚ) (remaining_minutes : ℕ) : Option String :=
  match (PHASE_SETTINGS.map (fun p => p.1)).indexOf? phase_name with
  | none => none
  | some current_phase_index =>
      let time_pressure_ratio : ℚ :=
        (remaining_minutes : ℚ) / max ((planned_remaining_time current_phase_index : ℕ) : ℚ) 1
      if time_pressure_ratio < 0.5 then some strategy_text_critical
      else if time_pressure_ratio < 0.8 then some strategy_text_accelerate
      else if (1.2 : ℚ) < time_pressure_ratio then some strategy_text_ample
      else some strategy_text_on_track


/-! ## JSON values and decoding (model of python `json.loads`, used by
`_parse_gpt_response` and `_parse_hr_analysis`) -/

/-- A decoded JSON document.  Finite numbers are modelled as rationals (the
claims settled here do not depend on float rounding); strings and object
keys are character lists.  Objects keep their members in order, as python
dicts do.  `jnan` and `jinf` are the non-JSON constants `NaN`, `Infinity`
and `-Infinity` that python's `json.loads` accepts by default
(`parse_constant`) and decodes to floats. -/
inductive JVal
  | jnull
  | jbool (b : Bool)
  | jnum (q : ℚ)
  | jnan
  | jinf (neg : Bool)
  | jstr (s : List Char)
  | jarr (elements : List JVal)
  | jobj (members : List (List Char × JVal))

/-- JSON whitespace as skipped by `json.loads` (space, tab, LF, CR). -/
def json_ws (c : Char) : Bool :=
  c == ' ' || c == '\t' || c == '\n' || c == '\r'

/-- Value of one hexadecimal digit. -/
def hex_digit_val (c : Char) : Option ℕ :=
  if c.isDigit then some (c.toNat - '0'.toNat)
  else if 'a' ≤ c ∧ c ≤ 'f' then some (c.toNat - 'a'.toNat + 10)
  else if 'A' ≤ c ∧ c ≤ 'F' then some (c.toNat - 'A'.toNat + 10)
  else none

/-- Body of a JSON string after the opening quote: plain characters up to
the closing quote, with the JSON escapes; strict mode rejects raw control
characters.  Returns the decoded characters and the rest of the input. -/
def parse_string_body : List Char → Option (List Char × List Char)
  | [] => none
  | '"' :: rest => some ([], rest)
  | '\\' :: 'u' :: a :: b :: c :: d :: rest =>
      match hex_digit_val a, hex_digit_val b, hex_digit_val c, hex_digit_val d with
      | some ha, some hb, some hc, some hd =>
          match parse_string_body rest with
          | some (str, r2) =>
              some (Char.ofNat (((ha * 16 + hb) * 16 + hc) * 16 + hd) :: str, r2)
          | none => none
      | _, _, _, _ => none
  | '\\' :: e :: rest =>
      let esc : Option Char :=
        if e = '"' then some '"'
        else if e = '\\' then some '\\'
        else if e = '/' then some '/'
        else if e = 'b' then some (Char.ofNat 8)
        else if e = 'f' then some (Char.ofNat 12)
        else if e = 'n' then some '\n'
        else if e = 'r' then some '\r'
        else if e = 't' then some '\t'
        else none
      match esc with
      | some ch =>
          match parse_string_body rest with
          | some (str, r2) => some (ch :: str, r2)
          | none => none
      | none => none
  | c :: rest =>
      if c.toNat < 32 then none
      else
        match parse_string_body rest with
        | some (str, r2) => some (c :: str, r2)
        | none => none

/-- Digits to a natural number. -/
def digits_to_nat (ds : List Char) : ℕ :=
  ds.foldl (fun n c => 10 * n + (c.toNat - '0'.toNat)) 0

/-- A JSON number: `-?(0|[1-9][0-9]*)(\.[0-9]+)?([eE][+-]?[0-9]+)?`,
evaluated exactly in `ℚ`. -/
def parse_number (s : List Char) : Option (ℚ × List Char) :=
  let (neg, s1) := match s with | '-' :: t => (true, t) | _ => (false, s)
  let int_digits := s1.takeWhile Char.isDigit
  let s2 := s1.dropWhile Char.isDigit
  if int_digits.isEmpty then none
  else if int_digits.head? = some '0' ∧ int_digits.length ≠ 1 then none
  else
    let base : ℚ := (digits_to_nat int_digits : ℚ)
    let withFrac : Option (ℚ × List Char) :=
      match s2 with
      | '.' :: t =>
          let frac_digits := t.takeWhile Char.isDigit
          if frac_digits.isEmpty then none
          else
            some (base + (digits_to_nat frac_digits : ℚ)
                / ((10 : ℚ) ^ frac_digits.length), t.dropWhile Char.isDigit)
      | _ => some (base, s2)
    match withFrac with
    | none => none
    | some (q, s3) =>
        let withExp : Option (ℚ × List Char) :=
          match s3 with
          | 'e' :: t | 'E' :: t =>
              let (eneg, t1) := match t with
                | '+' :: t2 => (false, t2)
                | '-' :: t2 => (true, t2)
                | _ => (false, t)
              let exp_digits := t1.takeWhile Char.isDigit
              if exp_digits.isEmpty then none
              else
                let e : ℤ := if eneg then -(digits_to_nat exp_digits : ℤ)
                             else (digits_to_nat exp_digits : ℤ)
                some (q * (10 : ℚ) ^ e, t1.dropWhile Char.isDigit)
          | _ => some (q, s3)
        match withExp with
        | none => none
        | some (q2, s4) => some ((if neg then -q2 else q2), s4)

mutual

/-- Recursive-descent JSON value parser (fuel-indexed; the fuel only
decreases next to consumed input, so `length + 1` fuel never runs out on an
accepted document). -/
def parse_json_value : ℕ → List Char → Option (JVal × List Char)
  | 0, _ => none
  | fuel + 1, s =>
    match s with
    | [] => none
    | c :: rest =>
      if c = '{' then
        match rest.dropWhile json_ws with
        | '}' :: r2 => some (.jobj [], r2)
        | r => match parse_json_members fuel r with
               | some (ms, r2) => some (.jobj ms, r2)
               | none => none
      else if c = '[' then
        match rest.dropWhile json_ws with
        | ']' :: r2 => some (.jarr [], r2)
        | r => match parse_json_elements fuel r with
               | some (es, r2) => some (.jarr es, r2)
               | none => none
      else if c = '"' then
        match parse_string_body rest with
        | some (str, r2) => some (.jstr str, r2)
        | none => none
      else if c = 't' then
        match s with
        | 't' :: 'r' :: 'u' :: 'e' :: r2 => some (.jbool true, r2)
        | _ => none
      else if c = 'f' then
        match s with
        | 'f' :: 'a' :: 'l' :: 's' :: 'e' :: r2 => some (.jbool false, r2)
        | _ => none
      else if c = 'n' then
        match s with
        | 'n' :: 'u' :: 'l' :: 'l' :: r2 => some (.jnull, r2)
        | _ => none
      else
        match parse_number s with
        | some (q, r2) => some (.jnum q, r2)
        | none =>
          match s with
          | 'N' :: 'a' :: 'N' :: r2 => some (.jnan, r2)
          | 'I' :: 'n' :: 'f' :: 'i' :: 'n' :: 'i' :: 't' :: 'y' :: r2 =>
              some (.jinf false, r2)
          | '-' :: 'I' :: 'n' :: 'f' :: 'i' :: 'n' :: 'i' :: 't' :: 'y' :: r2 =>
              some (.jinf true, r2)
          | _ => none

/-- Members of a JSON object, positioned at (whitespace before) the next
key; consumes the closing brace. -/
def parse_json_members : ℕ → List Char → Option (List (List Char × JVal) × List Char)
  | 0, _ => none
  | fuel + 1, s =>
    match s.dropWhile json_ws with
    | '"' :: rest =>
      match parse_string_body rest with
      | some (key, r2) =>
        match r2.dropWhile json_ws with
        | ':' :: r4 =>
          match parse_json_value fuel (r4.dropWhile json_ws) with
          | some (v, r5) =>
            match r5.dropWhile json_ws with
            | ',' :: r7 =>
                (match parse_json_members fuel r7 with
                 | some (ms, r8) => some ((key, v) :: ms, r8)
                 | none => none)
            | '}' :: r7 => some ([(key, v)], r7)
            | _ => none
          | none => none
        | _ => none
      | none => none
    | _ => none

/-- Elements of a JSON array, positioned at (whitespace before) the next
value; consumes the closing bracket. -/
def parse_json_elements : ℕ → List Char → Option (List JVal × List Char)
  | 0, _ => none
  | fuel + 1, s =>
    match parse_json_value fuel (s.dropWhile json_ws) with
    | some (v, r1) =>
      match r1.dropWhile json_ws with
      | ',' :: r2 =>
          (match parse_json_elements fuel r2 with
           | some (es, r3) => some (v :: es, r3)
           | none => none)
      | ']' :: r2 => some ([v], r2)
      | _ => none
    | none => none

end

/-- Model of `json.loads`: skip leading whitespace, parse one value
(including the non-JSON constants `NaN`/`Infinity`/`-Infinity`, which the
python decoder accepts by default), require only whitespace after it; any
failure (a `JSONDecodeError` in python) is `none`. -/
def loads (s : List Char) : Option JVal :=
  let t := s.dropWhile json_ws
  match parse_json_value (t.length + 1) t with
  | some (v, rest) => if (rest.dropWhile json_ws).isEmpty then some v else none
  | none => none

/-! ## C10: profiler construction from candidate data
(`candidate_profiler.py` lines 64-104) -/

/-- The candidate-data dict fields read by `_init_from_candidate_data`;
`none` models a missing key (read with `.get` and a default). -/
structure CandidateData where
  candidate_name : Option String
  vacancy_title : Option String
  industry : Option String
  result_json : Option (List Char)

/-- The profile fields touched by `__init__`/`_parse_hr_analysis`
(`candidate_profiler.py` lines 20-38): identity strings, the technical
level (initially `"unknown"`, line 24) and the HR strengths/concerns
values (initially empty lists). -/
structure CandidateProfileInit where
  name : String
  vacancy_title : String
  industry : String
  technical_level : String
  hr_strengths : JVal
  hr_concerns : JVal

/-- A fresh `CandidateProfile()`. -/
def initial_profile : CandidateProfileInit :=
  ⟨"", "", "", "unknown", .jarr [], .jarr []⟩

/-- Python `dict.get(k, default)` on a decoded JSON object (with a repeated
key, the later member wins, as in a python dict built by `json.loads`). -/
def obj_get_default (members : List (List Char × JVal)) (k : List Char)
    (default : JVal) : JVal :=
  match members.reverse.find? (fun m => m.1 == k) with
  | some m => m.2
  | none => default

/-- Source `candidate_profiler.py` lines 85-104, `_parse_hr_analysis`:
decode `result_json`; on `json.JSONDecodeError` set both HR lists empty and
leave everything else (including `technical_level = "unknown"`) untouched;
on a successful decode read `final_evaluation` and classify `overall_score`
through the 85/70/50 bars.  The `try` block catches only
`json.JSONDecodeError`, so exceptions raised after a successful decode
escape the constructor; `none` models such an uncaught exception: a
non-dict decode (`.get` on a float/list/str/bool/`None` — e.g. the `NaN`
constant — raises `AttributeError`), a non-dict `final_evaluation` (same),
or an `overall_score` that cannot be compared with an int (`TypeError`).
Python booleans are ints (`True` is 1, below every bar); `nan` compares
false with everything; `Infinity` clears every bar and `-Infinity` none. -/
def parse_hr_analysis (p : CandidateProfileInit) (result_json : List Char) :
    Option CandidateProfileInit :=
  match loads result_json with
  | none => some { p with hr_strengths := .jarr [], hr_concerns := .jarr [] }
  | some (.jobj data) =>
    match obj_get_default data "final_evaluation".toList (.jobj []) with
    | .jobj final_eval =>
      let p1 := { p with
        hr_strengths := obj_get_default final_eval "key_strengths".toList (.jarr [])
        hr_concerns := obj_get_default final_eval "critical_concerns".toList (.jarr []) }
      match obj_get_default final_eval "overall_score".toList (.jnum 0) with
      | .jnum overall_score =>
        if (85 : ℚ) ≤ overall_score then
          some { p1 with technical_level := "senior_candidate" }
        else if (70 : ℚ) ≤ overall_score then
          some { p1 with technical_level := "middle_candidate" }
        else if (50 : ℚ) ≤ overall_score then
          some { p1 with technical_level := "junior_candidate" }
        else some p1
      | .jbool _ => some p1
      | .jnan => some p1
      | .jinf neg =>
          if neg then some p1
          else some { p1 with technical_level := "senior_candidate" }
      | _ => none
    | _ => none
  | some _ => none

/-- Source `candidate_profiler.py` lines 67-83: construct the profiler —
set name/vacancy/industry from the candidate dict (default empty strings),
then parse the HR analysis from `result_json` (default the string `'{}'`,
written here as explicit characters).  `none` is an exception escaping
`__init__`. -/
def init_from_candidate_data (candidate_data : CandidateData) :
    Option CandidateProfileInit :=
  let p := { initial_profile with
    name := candidate_data.candidate_name.getD ""
    vacancy_title := candidate_data.vacancy_title.getD ""
    industry := candidate_data.industry.getD "" }
  parse_hr_analysis p (candidate_data.result_json.getD ['\x7b', '\x7d'])


/-! ## C8: oracle response parsing (`adaptive_interview_manager.py`
lines 660-713) -/

/-- Characters matched by the regex class `\s` (ASCII): space, tab, LF,
CR, vertical tab, form feed. -/
def regex_ws (c : Char) : Bool :=
  c == ' ' || c == '\t' || c == '\n' || c == '\r'
    || c == Char.ofNat 11 || c == Char.ofNat 12

/-- The backtick character (written by code point to keep it out of the
source text). -/
def backtick_char : Char := Char.ofNat 96

/-- The literal opening tag of the fence pattern: three backticks then
`json`. -/
def fence_open_tag : List Char :=
  [backtick_char, backtick_char, backtick_char, 'j', 's', 'o', 'n']

/-- The literal closing tag of the fence pattern: three backticks. -/
def fence_close_tag : List Char :=
  [backtick_char, backtick_char, backtick_char]

/-- Does `s` start with the pattern `pat`? -/
def starts_with_chars : List Char → List Char → Bool
  | [], _ => true
  | _ :: _, [] => false
  | p :: ps, c :: cs => p == c && starts_with_chars ps cs

/-- The group of the fence regex, positioned just after its opening brace:
the non-greedy `.*?` together with the closing `\}\s*` and backticks means
the group ends at the first brace that is followed by optional whitespace
and the closing tag; if no such brace exists the candidate start fails. -/
def take_fence_group_end : List Char → Option (List Char)
  | [] => none
  | c :: rest =>
    if c = '}' then
      if starts_with_chars fence_close_tag (rest.dropWhile regex_ws) then some ['}']
      else
        match take_fence_group_end rest with
        | some g => some ('}' :: g)
        | none => none
    else
      match take_fence_group_end rest with
      | some g => some (c :: g)
      | none => none

/-- Model of `re.search` with the source pattern (manager line 663,
`DOTALL`): try each start position left to right; at a position matching
the literal open tag, skip the (greedily matched) whitespace, require an
opening brace, and find the group end; on failure continue with later
start positions. -/
def find_fenced_json : List Char → Option (List Char)
  | [] => none
  | c :: rest =>
    if starts_with_chars fence_open_tag (c :: rest) then
      match ((c :: rest).drop fence_open_tag.length).dropWhile regex_ws with
      | c2 :: t =>
        if c2 = '{' then
          match take_fence_group_end t with
          | some g => some ('{' :: g)
          | none => find_fenced_json rest
        else find_fenced_json rest
      | [] => find_fenced_json rest
    else find_fenced_json rest

/-- Source `adaptive_interview_manager.py` lines 669-671: the brace-scan
fallback `response[response.find('{') : response.rfind('}') + 1]`, which
exists only when a brace pair in the right order exists (`start != -1 and
end > start`). -/
def brace_substring (s : List Char) : Option (List Char) :=
  let a := s.dropWhile (fun c => !(c == '{'))
  let b := (a.reverse.dropWhile (fun c => !(c == '}'))).reverse
  if a.isEmpty then none
  else if b.isEmpty then none
  else some b

/-- The live manager values substituted by `_validate_and_clean_response`
for missing fields: `current_phase.value`, the profiler technical level,
and the time manager status and remaining minutes. -/
structure ResponseDefaults where
  current_phase : List Char
  candidate_level : List Char
  time_status : List Char
  remaining_minutes : ℚ

/-- Python `field in response` on a decoded object. -/
def obj_has_key (members : List (List Char × JVal)) (k : List Char) : Bool :=
  members.any (fun m => m.1 == k)

/-- Source `adaptive_interview_manager.py` lines 685-692: the
`required_fields` defaults. -/
def required_fields (d : ResponseDefaults) : List (List Char × JVal) :=
  [("interview_status".toList, .jstr "continuing".toList),
   ("current_phase".toList, .jstr d.current_phase),
   ("candidate_level".toList, .jstr d.candidate_level),
   ("next_question".toList, .jstr "Продолжим наше интервью.".toList),
   ("question_area".toList, .jstr "general".toList),
   ("question_difficulty".toList, .jstr "medium".toList)]

/-- Source `adaptive_interview_manager.py` lines 698-704: the
`time_management` default dict. -/
def time_management_default (d : ResponseDefaults) : JVal :=
  .jobj [("status".toList, .jstr d.time_status),
         ("remaining_minutes".toList, .jnum d.remaining_minutes),
         ("priority_actions".toList, .jarr []),
         ("time_strategy".toList, .jstr "standard".toList)]

/-- Source `adaptive_interview_manager.py` lines 706-711: the
`repetition_analysis` default dict. -/
def repetition_analysis_default : JVal :=
  .jobj [("similar_questions_asked".toList, .jarr []),
         ("avoided_repetition".toList, .jstr "none".toList),
         ("alternative_approach".toList, .jstr "standard".toList)]

/-- Source `adaptive_interview_manager.py` lines 682-713,
`_validate_and_clean_response`: insert each missing required field (dict
assignment of a missing key appends it in order), then the two missing
nested defaults. -/
def validate_and_clean_response (d : ResponseDefaults)
    (response : List (List Char × JVal)) : List (List Char × JVal) :=
  let r1 := (required_fields d).foldl
    (fun acc kv => if obj_has_key acc kv.1 then acc else acc ++ [kv]) response
  let r2 :=
    if obj_has_key r1 "time_management".toList then r1
    else r1 ++ [("time_management".toList, time_management_default d)]
  if obj_has_key r2 "repetition_analysis".toList then r2
  else r2 ++ [("repetition_analysis".toList, repetition_analysis_default)]

/-- Source `adaptive_interview_manager.py` lines 660-680,
`_parse_gpt_response`: try the fenced pattern first; on a match decode the
group and validate; a decode failure there is a caught `JSONDecodeError`
returning `None` (the brace fallback is *not* tried, since the `try` block
has been left).  Without a fence match, brace-scan and decode.  Every
decoded candidate starts with a brace, so a successful decode is an object;
a non-object decode would raise an uncaught `TypeError` inside validation
in the source (modelled as no-result, unreachable). -/
def parse_gpt_response (d : ResponseDefaults) (response : List Char) : Option JVal :=
  match find_fenced_json response with
  | some json_str =>
    (match loads json_str with
     | some (.jobj parsed) => some (.jobj (validate_and_clean_response d parsed))
     | some _ => none
     | none => none)
  | none =>
    match brace_substring response with
    | some json_str =>
      (match loads json_str with
       | some (.jobj parsed) => some (.jobj (validate_and_clean_response d parsed))
       | some _ => none
       | none => none)
    | none => none

/-- Wrap a payload in a fenced code block: the open tag, a newline, the
payload, a newline, the close tag. -/
def fence_wrap (p : List Char) : List Char :=
  fence_open_tag ++ '\n' :: (p ++ '\n' :: fence_close_tag)

/-- Proof-side helper: does `s` contain an occurrence of the fence open
tag? -/
def contains_fence_tag : List Char → Bool
  | [] => false
  | c :: rest => starts_with_chars fence_open_tag (c :: rest) || contains_fence_tag rest

/-- Proof-side helper: `t` without its trailing regex whitespace. -/
def trim_trailing_ws (t : List Char) : List Char :=
  (t.reverse.dropWhile regex_ws).reverse

/-- Proof-side helper: the last non-whitespace character of `t` is a
closing brace. -/
def ends_with_brace (t : List Char) : Bool :=
  (t.reverse.dropWhile regex_ws).head? == some '}'

end AIHR

namespace AIHR

/-! ## Theorems for C1 -/

theorem update_from_answer_scores_total (p : AvgScores) (a : AnswerScores) :
    (update_from_answer_scores p a).total_questions = p.total_questions + 1 := by
  unfold update_from_answer_scores update_average_scores
  split <;> rfl

theorem foldl_update_total (xs : List AnswerScores) :
    ∀ p : AvgScores,
      (xs.foldl update_from_answer_scores p).total_questions
        = p.total_questions + xs.length := by
  induction xs with
  | nil => intro p; simp
  | cons a xs ih =>
      intro p
      simp only [List.foldl_cons, ih, update_from_answer_scores_total, List.length_cons]
      omega

theorem process_answers_total (xs : List AnswerScores) :
    (process_answers xs).total_questions = xs.length := by
  simpa using foldl_update_total xs ⟨0, 0, 0, 0⟩

/-- Claim C1: after processing any nonempty sequence of `n` answers through
`update_from_answer`, each of the three running averages equals the
arithmetic mean of the corresponding `n` per-answer scores — an online
mean, not exponential smoothing. -/
theorem avg_scores_are_arithmetic_means (xs : List AnswerScores) (hxs : xs ≠ []) :
    (process_answers xs).avg_technical_score
        = (xs.map (·.technical_score)).sum / (xs.length : ℚ)
    ∧ (process_answers xs).avg_communication_score
        = (xs.map (·.communication_score)).sum / (xs.length : ℚ)
    ∧ (process_answers xs).avg_confidence_score
        = (xs.map (·.confidence_score)).sum / (xs.length : ℚ) := by
  induction xs using List.reverseRecOn with
  | nil => exact absurd rfl hxs
  | append_singleton ys a ih =>
      have hstep : process_answers (ys ++ [a])
          = update_from_answer_scores (process_answers ys) a := by
        simp [process_answers]
      by_cases hys : ys = []
      · subst hys
        simp [process_answers, update_from_answer_scores, update_average_scores]
      · obtain ⟨h1, h2, h3⟩ := ih hys
        have hn : 0 < ys.length := List.length_pos.mpr hys
        have htot : (process_answers ys).total_questions = ys.length :=
          process_answers_total ys
        have hne1 : ys.length + 1 ≠ 1 := by omega
        have hQn : (ys.length : ℚ) ≠ 0 := by
          exact_mod_cast Nat.pos_iff_ne_zero.mp hn
        have hQn1 : ((ys.length : ℚ) + 1) ≠ 0 := by positivity
        have key : ∀ s x : ℚ,
            (s / (ys.length : ℚ)) * (1 - 1 / ((ys.length : ℚ) + 1))
              + x * (1 / ((ys.length : ℚ) + 1))
            = (s + x) / ((ys.length : ℚ) + 1) := by
          intro s x
          field_simp
        rw [hstep]
        unfold update_from_answer_scores update_average_scores
        simp only [htot, hne1, if_false, List.map_append, List.sum_append,
          List.map_cons, List.map_nil, List.sum_cons, List.sum_nil,
          List.length_append, List.length_cons, List.length_nil]
        push_cast
        refine ⟨?_, ?_, ?_⟩
        · rw [h1]; simpa using key (ys.map (·.technical_score)).sum a.technical_score
        · rw [h2]; simpa using key (ys.map (·.communication_score)).sum a.communication_score
        · rw [h3]; simpa using key (ys.map (·.confidence_score)).sum a.confidence_score

/-- Witness for C1 at a concrete two-answer run. -/
theorem avg_scores_are_arithmetic_means_witness :
    (process_answers [⟨4, 6, 8⟩, ⟨6, 4, 2⟩]).avg_technical_score
        = (([⟨4, 6, 8⟩, ⟨6, 4, 2⟩] : List AnswerScores).map (·.technical_score)).sum
            / (([⟨4, 6, 8⟩, ⟨6, 4, 2⟩] : List AnswerScores).length : ℚ)
    ∧ (process_answers [⟨4, 6, 8⟩, ⟨6, 4, 2⟩]).avg_communication_score
        = (([⟨4, 6, 8⟩, ⟨6, 4, 2⟩] : List AnswerScores).map (·.communication_score)).sum
            / (([⟨4, 6, 8⟩, ⟨6, 4, 2⟩] : List AnswerScores).length : ℚ)
    ∧ (process_answers [⟨4, 6, 8⟩, ⟨6, 4, 2⟩]).avg_confidence_score
        = (([⟨4, 6, 8⟩, ⟨6, 4, 2⟩] : List AnswerScores).map (·.confidence_score)).sum
            / (([⟨4, 6, 8⟩, ⟨6, 4, 2⟩] : List AnswerScores).length : ℚ) :=
  avg_scores_are_arithmetic_means [⟨4, 6, 8⟩, ⟨6, 4, 2⟩] (by decide)

/-! ## Theorems for C4 -/

theorem track_preserves_failed (st : AreaTracking) (a t : String) (x : ℚ)
    (h : st.failed_areas t = true) :
    (track_area_performance st a x).failed_areas t = true := by
  unfold track_area_performance
  split_ifs <;> simp [h]
  split_ifs <;> simp [h]

theorem foldl_track_preserves_failed (t : String) (xs : List ℚ) :
    ∀ st : AreaTracking, st.failed_areas t = true →
      ((xs.foldl (fun s x => track_area_performance s t x) st).failed_areas t = true) := by
  induction xs with
  | nil => intro st h; simpa using h
  | cons x xs ih =>
      intro st h
      simp only [List.foldl_cons]
      exact ih _ (track_preserves_failed st t t x h)

theorem has_two_consecutive_low_cons_of_not_low (y : ℚ) (r : List ℚ)
    (hy : ¬ y ≤ failure_threshold) :
    has_two_consecutive_low_scores (y :: r) = has_two_consecutive_low_scores r := by
  cases r with
  | nil => simp [has_two_consecutive_low_scores]
  | cons z r2 => simp [has_two_consecutive_low_scores, hy]

theorem has_two_consecutive_low_cons_of_low (x : ℚ) (xs : List ℚ)
    (hx : x ≤ failure_threshold) :
    has_two_consecutive_low_scores (x :: xs) = low_after_one_failure xs := by
  cases xs with
  | nil => simp [has_two_consecutive_low_scores, low_after_one_failure]
  | cons y r =>
      by_cases hy : y ≤ failure_threshold
      · simp [has_two_consecutive_low_scores, low_after_one_failure, hx, hy]
      · simp [has_two_consecutive_low_scores, low_after_one_failure, hx, hy,
          has_two_consecutive_low_cons_of_not_low y r hy]

theorem track_run_characterization (t : String) (xs : List ℚ) :
    ∀ st : AreaTracking,
      (st.consecutive_failures_in_area t = 0 →
        (xs.foldl (fun s x => track_area_performance s t x) st).failed_areas t
          = (st.failed_areas t || has_two_consecutive_low_scores xs))
      ∧ (st.consecutive_failures_in_area t = 1 →
        (xs.foldl (fun s x => track_area_performance s t x) st).failed_areas t
          = (st.failed_areas t || low_after_one_failure xs)) := by
  induction xs with
  | nil =>
      intro st
      constructor <;> intro _ <;>
        simp [has_two_consecutive_low_scores, low_after_one_failure]
  | cons x xs ih =>
      intro st
      constructor
      · intro h0
        simp only [List.foldl_cons]
        by_cases hf : x ≤ failure_threshold
        · have hcf : (track_area_performance st t x).consecutive_failures_in_area t = 1 := by
            simp [track_area_performance, hf, h0]
          have hfa : (track_area_performance st t x).failed_areas t = st.failed_areas t := by
            simp [track_area_performance, hf, h0]
          rw [(ih (track_area_performance st t x)).2 hcf, hfa,
            has_two_consecutive_low_cons_of_low x xs hf]
        · have hcf : (track_area_performance st t x).consecutive_failures_in_area t = 0 := by
            by_cases hs : success_threshold ≤ x <;>
              simp [track_area_performance, hf, hs, h0]
          have hfa : (track_area_performance st t x).failed_areas t = st.failed_areas t := by
            by_cases hs : success_threshold ≤ x <;>
              simp [track_area_performance, hf, hs, h0]
          rw [(ih (track_area_performance st t x)).1 hcf, hfa,
            has_two_consecutive_low_cons_of_not_low x xs hf]
      · intro h1
        simp only [List.foldl_cons]
        by_cases hf : x ≤ failure_threshold
        · have hfa : (track_area_performance st t x).failed_areas t = true := by
            simp [track_area_performance, hf, h1]
          rw [foldl_track_preserves_failed t xs _ hfa]
          simp [low_after_one_failure, hf]
        · have hcf : (track_area_performance st t x).consecutive_failures_in_area t = 0 := by
            by_cases hs : success_threshold ≤ x <;>
              simp [track_area_performance, hf, hs, h1]
          have hfa : (track_area_performance st t x).failed_areas t = st.failed_areas t := by
            by_cases hs : success_threshold ≤ x <;>
              simp [track_area_performance, hf, hs, h1]
          rw [(ih (track_area_performance st t x)).1 hcf, hfa]
          simp [low_after_one_failure, hf]

/-- Claim C4: a topic is in the failed set after a sequence of recorded
scores exactly when the sequence contains two consecutive scores at or
below the failure threshold (a success-threshold score fully resets the
consecutive-failure counter, any other score only decrements it, so no
non-adjacent pair can fail the topic); and once failed the topic stays
failed for the rest of the session. -/
theorem failed_area_iff_two_consecutive_low (t : String) (xs : List ℚ) :
    ((process_area_scores t xs).failed_areas t = has_two_consecutive_low_scores xs)
    ∧ ∀ ys : List ℚ, (process_area_scores t xs).failed_areas t = true →
        (process_area_scores t (xs ++ ys)).failed_areas t = true := by
  constructor
  · simpa [process_area_scores, initial_area_tracking] using
      (track_run_characterization t xs initial_area_tracking).1 rfl
  · intro ys h
    have : process_area_scores t (xs ++ ys)
        = ys.foldl (fun s x => track_area_performance s t x) (process_area_scores t xs) := by
      simp [process_area_scores]
    rw [this]
    exact foldl_track_preserves_failed t ys _ h

/-- Witness for C4: two consecutive scores of 3 fail the topic, and it stays
failed after a later strong answer. -/
theorem failed_area_iff_two_consecutive_low_witness :
    (process_area_scores "algorithms" ([3, 3] ++ [9])).failed_areas "algorithms" = true :=
  (failed_area_iff_two_consecutive_low "algorithms" [3, 3]).2 [9] (by decide)


/-! ## Theorems for C5 -/

/-- Claim C5: `is_repetitive` returns true when the topic frequency has
reached 3 regardless of keyword overlap; otherwise exactly when one of the
3 most recent records shares at least 2 keywords with the proposed question
with an overlap ratio above 0.6; a question with no extracted keywords can
only trigger the frequency rule. -/
theorem is_repetitive_characterization (extract_keywords : String → Finset String)
    (d : RepetitionDetector) (q t : String) :
    (is_repetitive extract_keywords d q t = true ↔
      3 ≤ d.topic_frequency t ∨
        ∃ r ∈ last_three d.question_history,
          2 ≤ ((extract_keywords q) ∩ r.keywords).card ∧
          (0.6 : ℚ) < (((extract_keywords q) ∩ r.keywords).card : ℚ)
              / ((extract_keywords q).card : ℚ))
    ∧ (extract_keywords q = ∅ →
        (is_repetitive extract_keywords d q t = true ↔ 3 ≤ d.topic_frequency t)) := by
  constructor
  · unfold is_repetitive
    by_cases h3 : 3 ≤ d.topic_frequency t
    · simp [h3]
    · simp only [h3, if_false, List.any_eq_true, Bool.and_eq_true, decide_eq_true_eq,
        iff_false_intro h3, false_or]
      constructor
      · rintro ⟨r, hr, ⟨hA, _⟩, hC⟩
        exact ⟨r, hr, hA, hC⟩
      · rintro ⟨r, hr, hA, hC⟩
        have hsub : (extract_keywords q) ∩ r.keywords ⊆ extract_keywords q :=
          Finset.inter_subset_left
        have hpk : 0 < (extract_keywords q).card :=
          lt_of_lt_of_le (by omega) (Finset.card_le_card hsub)
        exact ⟨r, hr, ⟨hA, hpk⟩, hC⟩
  · intro h
    unfold is_repetitive
    by_cases h3 : 3 ≤ d.topic_frequency t
    · simp [h3]
    · simp [h3, h]

/-- Witness for C5, second part, at a keyword-free question and empty
detector state. -/
theorem is_repetitive_characterization_witness :
    (is_repetitive (fun _ => (∅ : Finset String))
        ⟨[], fun _ => 0, fun _ => false⟩ "q" "t" = true
      ↔ 3 ≤ (⟨[], fun _ => 0, fun _ => false⟩ : RepetitionDetector).topic_frequency "t") :=
  (is_repetitive_characterization (fun _ => ∅)
    ⟨[], fun _ => 0, fun _ => false⟩ "q" "t").2 rfl


/-! ## Theorems for C6 -/

/-- Claim C6: the recommendation is a strict ordered chain over
`(overall_score, red_flags_count)` with the configured 80/65/50 thresholds
and red-flag caps 0/1/2; the confidence label depends only on the red-flag
count (`0 → high`, `1-2 → medium`, `>2 → low`); score 82 with zero flags
gives `strong_hire`/`high`, and score 82 with three flags gives `no_hire`. -/
theorem final_recommendation_bands (s : ℤ) (f : ℕ) :
    ((final_recommendation s f).1 = "strong_hire" ↔
      threshold_strong_hire ≤ s ∧ f = 0)
    ∧ ((final_recommendation s f).1 = "hire" ↔
      ¬(threshold_strong_hire ≤ s ∧ f = 0) ∧ threshold_hire ≤ s ∧ f ≤ 1)
    ∧ ((final_recommendation s f).1 = "conditional_hire" ↔
      ¬(threshold_strong_hire ≤ s ∧ f = 0) ∧ ¬(threshold_hire ≤ s ∧ f ≤ 1)
        ∧ threshold_conditional_hire ≤ s ∧ f ≤ 2)
    ∧ ((final_recommendation s f).1 = "no_hire" ↔
      ¬(threshold_strong_hire ≤ s ∧ f = 0) ∧ ¬(threshold_hire ≤ s ∧ f ≤ 1)
        ∧ ¬(threshold_conditional_hire ≤ s ∧ f ≤ 2))
    ∧ ((final_recommendation s f).2 = "high" ↔ f = 0)
    ∧ ((final_recommendation s f).2 = "medium" ↔ 1 ≤ f ∧ f ≤ 2)
    ∧ ((final_recommendation s f).2 = "low" ↔ 2 < f)
    ∧ final_recommendation 82 0 = ("strong_hire", "high")
    ∧ (final_recommendation 82 3).1 = "no_hire" := by
  refine ⟨?_, ?_, ?_, ?_, ?_, ?_, ?_, by decide, by decide⟩ <;>
    · unfold final_recommendation
      split_ifs <;> simp_all <;> omega

/-! ## Theorems for C7 -/

/-- Counterexample to C7 as stated: with the difficulty already `easy`, a
running average of 5, one prior weak answer and a new weak score 3, the
consecutive-weak counter reaches its threshold (2) yet the difficulty is
set to the average-based recommendation `medium`, not forced to `easy`. -/
theorem adapt_difficulty_counter_rule_not_absolute :
    consecutive_weak_threshold
        ≤ (adapt_difficulty ⟨1, 0, "easy", 5⟩ 3).consecutive_weak_answers
    ∧ (adapt_difficulty ⟨1, 0, "easy", 5⟩ 3).current_difficulty ≠ "easy"
    ∧ (adapt_difficulty ⟨1, 0, "easy", 5⟩ 3).current_difficulty = "medium" := by
  decide

/-- Claim C7 (amended): the consecutive-weak rule forces `easy` (and the
consecutive-strong rule forces `hard`) only when the difficulty is not
already that value; in every other case — including when a counter is at
its threshold but the difficulty already equals the forced value — the
difficulty is set to the profile-driven recommendation. -/
theorem adapt_difficulty_characterization (st : DifficultyState) (tech_score : ℚ) :
    (consecutive_weak_threshold
        ≤ (adapt_difficulty st tech_score).consecutive_weak_answers →
      st.current_difficulty ≠ "easy" →
      (adapt_difficulty st tech_score).current_difficulty = "easy")
    ∧ (consecutive_strong_threshold
        ≤ (adapt_difficulty st tech_score).consecutive_strong_answers →
      st.current_difficulty ≠ "hard" →
      (adapt_difficulty st tech_score).current_difficulty = "hard")
    ∧ (¬(consecutive_weak_threshold
          ≤ (adapt_difficulty st tech_score).consecutive_weak_answers
        ∧ st.current_difficulty ≠ "easy") →
      ¬(consecutive_strong_threshold
          ≤ (adapt_difficulty st tech_score).consecutive_strong_answers
        ∧ st.current_difficulty ≠ "hard") →
      (adapt_difficulty st tech_score).current_difficulty
        = should_adjust_difficulty st.avg_technical_score st.current_difficulty) := by
  refine ⟨?_, ?_, ?_⟩ <;>
    · simp only [adapt_difficulty]
      split_ifs <;>
        simp_all [consecutive_weak_threshold, consecutive_strong_threshold]

/-- Witness for C7 (amended): two consecutive weak answers starting from
`medium` force the difficulty to `easy`. -/
theorem adapt_difficulty_characterization_witness :
    (adapt_difficulty ⟨1, 0, "medium", 5⟩ 3).current_difficulty = "easy" :=
  (adapt_difficulty_characterization ⟨1, 0, "medium", 5⟩ 3).1 (by decide) (by decide)


/-! ## Theorems for C2 -/

/-- Counterexample to C2 as stated: after the 12th processed answer, with
time remaining, no red flags and the phase not `finished`,
`should_end_interview(max_time_minutes=25, max_questions=12)` returns
`false` — the `max_questions` argument is never read, the configured cap
`MAX_QUESTIONS_PER_INTERVIEW = 15` is used instead. -/
theorem should_end_interview_ignores_max_questions_argument :
    (⟨5, 12, InterviewPhase.exploration, [], none⟩ : ManagerEndState).total_questions = 12
    ∧ should_end_interview 25 12
        ⟨5, 12, InterviewPhase.exploration, [], none⟩ = false := by
  decide

/-- Claim C2 (amended): `should_end_interview` ignores both arguments and
returns true exactly when the elapsed time meets or exceeds
`MAX_INTERVIEW_TIME_MINUTES = 15`, or the total question count meets or
exceeds `MAX_QUESTIONS_PER_INTERVIEW = 15`, or the phase is `finished`, or
the distinct red flags have reached the configured critical count 8 and the
most recent oracle analysis did not request adaptation (the adaptation
request defers the red-flag termination exactly one call). -/
theorem should_end_interview_characterization
    (max_time_minutes max_questions : ℕ) (st : ManagerEndState) :
    should_end_interview max_time_minutes max_questions st = true ↔
      MAX_INTERVIEW_TIME_MINUTES ≤ st.elapsed_minutes
      ∨ MAX_QUESTIONS_PER_INTERVIEW ≤ st.total_questions
      ∨ st.current_phase = InterviewPhase.finished
      ∨ (8 ≤ st.red_flags.length
          ∧ adaptation_requested st.last_adaptation_needed = false) := by
  unfold should_end_interview time_manager_should_end_interview
    get_remaining_minutes criteria_max_time_exceeded
    criteria_max_questions_reached criteria_all_phases_completed
    criteria_critical_red_flags_count
  have helapsed : (MAX_INTERVIEW_TIME_MINUTES - st.elapsed_minutes = 0)
      ↔ MAX_INTERVIEW_TIME_MINUTES ≤ st.elapsed_minutes := by omega
  split_ifs with h1 h2 h3 h4
  all_goals simp_all
  all_goals omega

/-! ## Theorems for C3 -/

theorem get_recommended_phase_wrap_up (n : ℕ) (lvl : String) (avg : ℚ) :
    get_recommended_phase "wrap_up" n lvl avg = "finished" := rfl

theorem get_recommended_phase_finished (n : ℕ) (lvl : String) (avg : ℚ) :
    get_recommended_phase "finished" n lvl avg = "finished" := rfl

theorem check_transition_from_wrap_up (st : PhaseTransitionState)
    (resp : OracleTransitionSignals) (h : st.current_phase = InterviewPhase.wrap_up) :
    (check_enhanced_phase_transition st resp).current_phase = InterviewPhase.finished := by
  unfold check_enhanced_phase_transition
  rw [h]
  simp [InterviewPhase.value, get_recommended_phase_wrap_up, phase_of_value,
    transition_to_phase]

theorem check_transition_from_finished (st : PhaseTransitionState)
    (resp : OracleTransitionSignals) (h : st.current_phase = InterviewPhase.finished) :
    (check_enhanced_phase_transition st resp).current_phase = InterviewPhase.finished
    ∨ (check_enhanced_phase_transition st resp).current_phase = InterviewPhase.wrap_up := by
  unfold check_enhanced_phase_transition
  rw [h]
  simp only [InterviewPhase.value, get_recommended_phase_finished, ne_eq,
    not_true_eq_false, if_false, ite_self]
  simp only [check_transition_status_signals]
  split_ifs <;> simp [transition_to_phase, h]

/-- Counterexample to C3 as stated: with critical time status in the
`exploration` phase, the processing step does not stop at `wrap_up`: the
forced `wrap_up` transition is immediately followed by the unconditional
`wrap_up → finished` recommendation, so the step ends in `finished` even
though the phase was not already `wrap_up`/`finished`. -/
theorem critical_time_step_counterexample :
    get_time_status (get_remaining_minutes
      (⟨InterviewPhase.exploration, 15, fun _ => 0, "unknown", 0⟩
        : PhaseTransitionState).elapsed_minutes) = "critical_time"
    ∧ (⟨InterviewPhase.exploration, 15, fun _ => 0, "unknown", 0⟩
        : PhaseTransitionState).current_phase = InterviewPhase.exploration
    ∧ (apply_phase_adaptation_step
        ⟨InterviewPhase.exploration, 15, fun _ => 0, "unknown", 0⟩
        ⟨none, none, none⟩).current_phase ≠ InterviewPhase.wrap_up
    ∧ (apply_phase_adaptation_step
        ⟨InterviewPhase.exploration, 15, fun _ => 0, "unknown", 0⟩
        ⟨none, none, none⟩).current_phase = InterviewPhase.finished := by
  refine ⟨rfl, rfl, ?_, ?_⟩ <;> decide

/-- Claim C3 (amended): whenever an answer is processed while the absolute
time status is critical, the step ends with the phase in
`{wrap_up, finished}` — any phase other than `finished` is driven to
`finished` (forced `wrap_up` escalated by the `wrap_up → finished`
recommendation), and from `finished` the oracle status signals can at most
move the phase back to `wrap_up`. -/
theorem critical_time_forces_wrap_up_or_finished (st : PhaseTransitionState)
    (resp : OracleTransitionSignals)
    (hcrit : get_time_status (get_remaining_minutes st.elapsed_minutes)
      = "critical_time") :
    (apply_phase_adaptation_step st resp).current_phase = InterviewPhase.wrap_up
    ∨ (apply_phase_adaptation_step st resp).current_phase = InterviewPhase.finished := by
  unfold apply_phase_adaptation_step
  have hadapt : adapt_to_time_constraints st =
      if st.current_phase ≠ InterviewPhase.wrap_up
          ∧ st.current_phase ≠ InterviewPhase.finished then
        transition_to_phase st InterviewPhase.wrap_up
      else st := by
    unfold adapt_to_time_constraints
    rw [hcrit]
    simp
  rw [hadapt]
  by_cases hfin : st.current_phase = InterviewPhase.finished
  · rw [if_neg (by simp [hfin])]
    rcases check_transition_from_finished st resp hfin with h | h
    · exact Or.inr h
    · exact Or.inl h
  · by_cases hwrap : st.current_phase = InterviewPhase.wrap_up
    · rw [if_neg (by simp [hwrap])]
      exact Or.inr (check_transition_from_wrap_up st resp hwrap)
    · rw [if_pos ⟨hwrap, hfin⟩]
      exact Or.inr (check_transition_from_wrap_up
        (transition_to_phase st InterviewPhase.wrap_up) resp rfl)

/-- Witness for C3 (amended) at a concrete critical-time state. -/
theorem critical_time_forces_wrap_up_or_finished_witness :
    (apply_phase_adaptation_step
        ⟨InterviewPhase.validation, 14, fun _ => 0, "unknown", 0⟩
        ⟨none, none, none⟩).current_phase = InterviewPhase.wrap_up
    ∨ (apply_phase_adaptation_step
        ⟨InterviewPhase.validation, 14, fun _ => 0, "unknown", 0⟩
        ⟨none, none, none⟩).current_phase = InterviewPhase.finished :=
  critical_time_forces_wrap_up_or_finished
    ⟨InterviewPhase.validation, 14, fun _ => 0, "unknown", 0⟩
    ⟨none, none, none⟩ (by decide)


/-! ## Theorems for C9 -/

/-- Claim C9: for each key of the phase-settings table the strategy lookup
returns one of the four strategy texts, but at the terminal phase name
`finished` the key-index lookup fails (`ValueError` in the source), so the
function — and hence the orchestrator context-building step that calls it
with `current_phase.value` — is partial at the terminal phase. -/
theorem time_strategy_partial_at_finished (remaining_minutes : ℕ)
    (phase_history : List ℚ) (phase_name : String) :
    (phase_name ∈ PHASE_SETTINGS.map (fun p => p.1) →
      ∃ t, get_time_strategy_text_for_phase phase_name phase_history
            remaining_minutes = some t
        ∧ t ∈ [strategy_text_critical, strategy_text_accelerate,
               strategy_text_ample, strategy_text_on_track])
    ∧ get_time_strategy_text_for_phase "finished" phase_history
        remaining_minutes = none := by
  constructor
  · intro h
    simp only [PHASE_SETTINGS, List.map_cons, List.map_nil, List.mem_cons,
      List.not_mem_nil, or_false] at h
    rcases h with rfl | rfl | rfl | rfl | rfl
    · simp only [get_time_strategy_text_for_phase,
        show ((PHASE_SETTINGS.map (fun p => p.1)).indexOf? "exploration") = some 0 from rfl]
      split_ifs <;> exact ⟨_, rfl, by simp⟩
    · simp only [get_time_strategy_text_for_phase,
        show ((PHASE_SETTINGS.map (fun p => p.1)).indexOf? "validation") = some 1 from rfl]
      split_ifs <;> exact ⟨_, rfl, by simp⟩
    · simp only [get_time_strategy_text_for_phase,
        show ((PHASE_SETTINGS.map (fun p => p.1)).indexOf? "stress_test") = some 2 from rfl]
      split_ifs <;> exact ⟨_, rfl, by simp⟩
    · simp only [get_time_strategy_text_for_phase,
        show ((PHASE_SETTINGS.map (fun p => p.1)).indexOf? "soft_skills") = some 3 from rfl]
      split_ifs <;> exact ⟨_, rfl, by simp⟩
    · simp only [get_time_strategy_text_for_phase,
        show ((PHASE_SETTINGS.map (fun p => p.1)).indexOf? "wrap_up") = some 4 from rfl]
      split_ifs <;> exact ⟨_, rfl, by simp⟩
  · rfl

/-- Witness for C9 at `exploration` (a table key) and `finished`. -/
theorem time_strategy_partial_at_finished_witness :
    (∃ t, get_time_strategy_text_for_phase "exploration" [] 10 = some t
        ∧ t ∈ [strategy_text_critical, strategy_text_accelerate,
               strategy_text_ample, strategy_text_on_track])
    ∧ get_time_strategy_text_for_phase "finished" [] 10 = none :=
  ⟨(time_strategy_partial_at_finished 10 [] "exploration").1 (by simp [PHASE_SETTINGS]),
   (time_strategy_partial_at_finished 10 [] "finished").2⟩


/-! ## Theorems for C10 -/

/-- Counterexample to C10 as stated: the string `NaN` is not valid JSON,
yet python's `json.loads` accepts it by default and decodes it to a float,
so `_parse_hr_analysis` reaches `data.get('final_evaluation', ...)` on a
float and raises an uncaught `AttributeError` out of the constructor
(`none` in the model) — the construction does raise on this
not-valid-JSON `result_json`. -/
theorem profiler_init_nan_raises :
    loads "NaN".toList = some JVal.jnan
    ∧ init_from_candidate_data
        ⟨some "Alice", some "Backend Developer", some "fintech",
          some "NaN".toList⟩ = none := by
  exact ⟨rfl, rfl⟩

/-- Claim C10 (amended): constructing a profiler from candidate data whose
`result_json` is rejected by the JSON decoder (a `json.JSONDecodeError`)
never raises — the HR strengths and concerns are set to empty lists, the
technical level stays `"unknown"`, and the identity fields are initialised
normally.  (Strings that are not valid JSON but that the decoder accepts by
default — the constants `NaN`/`Infinity`/`-Infinity` — instead decode to
floats and raise an uncaught `AttributeError`.) -/
theorem profiler_init_with_invalid_json (cd : CandidateData) (rj : List Char)
    (hrj : cd.result_json = some rj) (hbad : loads rj = none) :
    init_from_candidate_data cd =
      some { name := cd.candidate_name.getD ""
             vacancy_title := cd.vacancy_title.getD ""
             industry := cd.industry.getD ""
             technical_level := "unknown"
             hr_strengths := .jarr []
             hr_concerns := .jarr [] } := by
  unfold init_from_candidate_data parse_hr_analysis
  rw [hrj]
  simp [hbad, initial_profile]

/-- Witness for C10 (amended) at a concrete `result_json` the decoder
rejects. -/
theorem profiler_init_with_invalid_json_witness :
    init_from_candidate_data
        ⟨some "Alice", some "Backend Developer", some "fintech",
          some "not a json".toList⟩ =
      some { name := "Alice"
             vacancy_title := "Backend Developer"
             industry := "fintech"
             technical_level := "unknown"
             hr_strengths := .jarr []
             hr_concerns := .jarr [] } :=
  profiler_init_with_invalid_json
    ⟨some "Alice", some "Backend Developer", some "fintech",
      some "not a json".toList⟩
    "not a json".toList rfl (by rfl)


/-! ## Theorems for C8 -/

theorem starts_with_chars_append_self (pat rest : List Char) :
    starts_with_chars pat (pat ++ rest) = true := by
  induction pat with
  | nil => rfl
  | cons p ps ih => simp [starts_with_chars, ih]

theorem mem_of_starts_with_fence_open (s : List Char)
    (h : starts_with_chars fence_open_tag s = true) : backtick_char ∈ s := by
  cases s with
  | nil => simp [fence_open_tag, starts_with_chars] at h
  | cons c cs =>
      simp only [fence_open_tag, starts_with_chars, Bool.and_eq_true, beq_iff_eq] at h
      rw [← h.1]
      exact List.mem_cons_self _ _

theorem contains_fence_tag_eq_false (s : List Char) (h : backtick_char ∉ s) :
    contains_fence_tag s = false := by
  induction s with
  | nil => rfl
  | cons c rest ih =>
      have h1 : starts_with_chars fence_open_tag (c :: rest) = false := by
        cases hsw : starts_with_chars fence_open_tag (c :: rest)
        · rfl
        · exact absurd (mem_of_starts_with_fence_open _ hsw) h
      simp [contains_fence_tag, h1, ih (fun hm => h (List.mem_cons_of_mem _ hm))]

theorem find_fenced_json_eq_none_of_no_tag (s : List Char)
    (h : contains_fence_tag s = false) : find_fenced_json s = none := by
  induction s with
  | nil => rfl
  | cons c rest ih =>
      simp only [contains_fence_tag, Bool.or_eq_false_iff] at h
      unfold find_fenced_json
      rw [h.1]
      simp [ih h.2]

theorem contains_fence_tag_append_close (p : List Char) (hp : backtick_char ∉ p) :
    contains_fence_tag (p ++ '\n' :: fence_close_tag) = false := by
  induction p with
  | nil => decide
  | cons c p' ih =>
      have hc : (backtick_char == c) = false := by
        simp only [beq_eq_false_iff_ne, ne_eq]
        intro heq
        exact hp (by rw [heq]; exact List.mem_cons_self _ _)
      have h1 : starts_with_chars fence_open_tag
          (c :: (p' ++ '\n' :: fence_close_tag)) = false := by
        simp [fence_open_tag, starts_with_chars, hc]
      simp [contains_fence_tag, h1,
        ih (fun hm => hp (List.mem_cons_of_mem _ hm))]

theorem contains_fence_tag_wrap_tail (p : List Char) (hp : backtick_char ∉ p) :
    contains_fence_tag (backtick_char :: backtick_char :: 'j' :: 's' :: 'o' :: 'n'
        :: '\n' :: (p ++ '\n' :: fence_close_tag)) = false := by
  have h := contains_fence_tag_append_close p hp
  simp [contains_fence_tag, starts_with_chars, fence_open_tag, h,
    show (backtick_char == 'j') = false from by decide,
    show (backtick_char == 's') = false from by decide,
    show (backtick_char == 'o') = false from by decide,
    show (backtick_char == 'n') = false from by decide,
    show (backtick_char == '\n') = false from by decide]

theorem find_fenced_json_eq_none_of_no_backtick (s : List Char)
    (h : backtick_char ∉ s) : find_fenced_json s = none :=
  find_fenced_json_eq_none_of_no_tag s (contains_fence_tag_eq_false s h)

theorem dropWhile_append_of_all {q : Char → Bool} (xs ys : List Char)
    (h : ∀ c ∈ xs, q c = true) :
    List.dropWhile q (xs ++ ys) = List.dropWhile q ys := by
  rw [List.dropWhile_append, List.dropWhile_eq_nil_iff.mpr h]
  rfl

theorem close_follows_iff_all_ws (t : List Char) (h : backtick_char ∉ t) :
    starts_with_chars fence_close_tag
        ((t ++ '\n' :: fence_close_tag).dropWhile regex_ws) = t.all regex_ws := by
  by_cases hall : ∀ c ∈ t, regex_ws c = true
  · rw [dropWhile_append_of_all t _ hall,
      show ('\n' :: fence_close_tag).dropWhile regex_ws = fence_close_tag from by decide,
      show starts_with_chars fence_close_tag fence_close_tag = true from by decide,
      List.all_eq_true.mpr hall]
  · have hne : t.dropWhile regex_ws ≠ [] :=
      fun hnil => hall (List.dropWhile_eq_nil_iff.mp hnil)
    obtain ⟨d, ds, hdd⟩ := List.exists_cons_of_ne_nil hne
    have hd_mem : d ∈ t := by
      apply (List.dropWhile_sublist (l := t) regex_ws).subset
      rw [hdd]
      exact List.mem_cons_self _ _
    have hd_ne : (backtick_char == d) = false := by
      simp only [beq_eq_false_iff_ne, ne_eq]
      intro heq
      exact h (by rw [heq]; exact hd_mem)
    have ht : t.all regex_ws = false := by
      rw [Bool.eq_false_iff]
      exact fun hx => hall (fun c hc => List.all_eq_true.mp hx c hc)
    rw [List.dropWhile_append, hdd]
    simp [fence_close_tag, starts_with_chars, hd_ne, ht]

theorem dropWhile_brace_eq_of_dropWhile_ws (l z : List Char)
    (h : l.dropWhile regex_ws = '}' :: z) :
    l.dropWhile (fun c => !(c == '}')) = '}' :: z := by
  induction l with
  | nil => simp at h
  | cons c cs ih =>
      by_cases hws : regex_ws c = true
      · have hc : (c == '}') = false := by
          by_cases hcb : c = '}'
          · rw [hcb] at hws; exact absurd hws (by decide)
          · simp [hcb]
        rw [List.dropWhile_cons, if_pos hws] at h
        rw [List.dropWhile_cons]
        simp only [hc, Bool.not_false, if_true]
        exact ih h
      · rw [List.dropWhile_cons, if_neg hws] at h
        injection h with h1 h2
        subst h1
        subst h2
        rw [List.dropWhile_cons]
        simp

theorem ends_with_brace_true_iff (t : List Char) :
    ends_with_brace t = true ↔ ∃ z, t.reverse.dropWhile regex_ws = '}' :: z := by
  unfold ends_with_brace
  cases hdd : t.reverse.dropWhile regex_ws with
  | nil => simp
  | cons d ds =>
      simp only [List.head?_cons, beq_iff_eq, Option.some.injEq, List.cons.injEq]
      constructor
      · intro hd; exact ⟨ds, hd, rfl⟩
      · rintro ⟨z, hz, _⟩; exact hz

theorem trim_trailing_ws_cons (c : Char) (t : List Char)
    (h : t.reverse.dropWhile regex_ws ≠ []) :
    trim_trailing_ws (c :: t) = c :: trim_trailing_ws t := by
  obtain ⟨d, ds, hdd⟩ := List.exists_cons_of_ne_nil h
  unfold trim_trailing_ws
  rw [List.reverse_cons, List.dropWhile_append, hdd]
  simp [List.reverse_append]

theorem ends_with_brace_cons (c : Char) (t : List Char)
    (hne : ¬(c = '}' ∧ t.all regex_ws = true)) :
    ends_with_brace (c :: t) = ends_with_brace t := by
  by_cases hall : t.all regex_ws = true
  · have hc : c ≠ '}' := fun hcb => hne ⟨hcb, hall⟩
    have hdw : t.reverse.dropWhile regex_ws = [] :=
      List.dropWhile_eq_nil_iff.mpr
        (fun x hx => List.all_eq_true.mp hall x (List.mem_reverse.mp hx))
    unfold ends_with_brace
    rw [List.reverse_cons, List.dropWhile_append, hdw]
    by_cases hwc : regex_ws c = true
    · simp [List.dropWhile_cons, hwc]
    · simp [List.dropWhile_cons, hwc, hc]
  · have hne2 : t.reverse.dropWhile regex_ws ≠ [] := by
      intro hnil
      exact hall (List.all_eq_true.mpr
        (fun x hx => List.dropWhile_eq_nil_iff.mp hnil x (List.mem_reverse.mpr hx)))
    obtain ⟨d, ds, hdd⟩ := List.exists_cons_of_ne_nil hne2
    unfold ends_with_brace
    rw [List.reverse_cons, List.dropWhile_append, hdd]
    simp

theorem take_fence_group_end_append_close (t : List Char) (h : backtick_char ∉ t) :
    take_fence_group_end (t ++ '\n' :: fence_close_tag)
      = if ends_with_brace t = true then some (trim_trailing_ws t) else none := by
  induction t with
  | nil => decide
  | cons c t' ih =>
      have hbt' : backtick_char ∉ t' := fun hm => h (List.mem_cons_of_mem _ hm)
      have hIH := ih hbt'
      rw [List.cons_append]
      by_cases hc : c = '}'
      · subst hc
        unfold take_fence_group_end
        rw [if_pos rfl, close_follows_iff_all_ws t' hbt']
        by_cases hall : t'.all regex_ws = true
        · rw [if_pos hall]
          have hrev : t'.reverse.dropWhile regex_ws = [] :=
            List.dropWhile_eq_nil_iff.mpr
              (fun x hx => List.all_eq_true.mp hall x (List.mem_reverse.mp hx))
          have hewb : ends_with_brace ('}' :: t') = true := by
            unfold ends_with_brace
            rw [List.reverse_cons, List.dropWhile_append, hrev]
            decide
          have htrim : trim_trailing_ws ('}' :: t') = ['}'] := by
            unfold trim_trailing_ws
            rw [List.reverse_cons, List.dropWhile_append, hrev]
            decide
          rw [hewb, htrim]
          simp
        · rw [if_neg hall, hIH]
          have hne2 : t'.reverse.dropWhile regex_ws ≠ [] := by
            intro hnil
            exact hall (List.all_eq_true.mpr
              (fun x hx => List.dropWhile_eq_nil_iff.mp hnil x (List.mem_reverse.mpr hx)))
          have heq := ends_with_brace_cons '}' t' (fun hand => hall hand.2)
          by_cases hewb : ends_with_brace t' = true
          · simp [hewb, heq, trim_trailing_ws_cons '}' t' hne2]
          · have hewbf : ends_with_brace t' = false := Bool.eq_false_iff.mpr hewb
            simp [hewbf, heq]
      · unfold take_fence_group_end
        rw [if_neg hc, hIH]
        have heq := ends_with_brace_cons c t' (fun hand => hc hand.1)
        by_cases hewb : ends_with_brace t' = true
        · have hne2 : t'.reverse.dropWhile regex_ws ≠ [] := by
            obtain ⟨z, hz⟩ := (ends_with_brace_true_iff t').mp hewb
            rw [hz]
            simp
          simp [hewb, heq, trim_trailing_ws_cons c t' hne2]
        · have hewbf : ends_with_brace t' = false := Bool.eq_false_iff.mpr hewb
          simp [hewbf, heq]

theorem find_fenced_json_cons (c : Char) (rest : List Char) :
    find_fenced_json (c :: rest)
      = if starts_with_chars fence_open_tag (c :: rest) = true then
          match ((c :: rest).drop fence_open_tag.length).dropWhile regex_ws with
          | c2 :: t =>
            if c2 = '{' then
              match take_fence_group_end t with
              | some g => some ('{' :: g)
              | none => find_fenced_json rest
            else find_fenced_json rest
          | [] => find_fenced_json rest
        else find_fenced_json rest := by
  rfl

theorem find_fenced_json_wrap_step (p : List Char) (hp : backtick_char ∉ p) :
    find_fenced_json (fence_wrap p)
      = (match (p ++ '\n' :: fence_close_tag).dropWhile regex_ws with
         | c2 :: t =>
            if c2 = '{' then
              match take_fence_group_end t with
              | some g => some ('{' :: g)
              | none => none
            else none
         | [] => none) := by
  have htail : find_fenced_json (backtick_char :: backtick_char :: 'j' :: 's' :: 'o'
      :: 'n' :: '\n' :: (p ++ '\n' :: fence_close_tag)) = none :=
    find_fenced_json_eq_none_of_no_tag _ (contains_fence_tag_wrap_tail p hp)
  have hsw : starts_with_chars fence_open_tag
      (backtick_char :: (backtick_char :: backtick_char :: 'j' :: 's' :: 'o' :: 'n'
        :: '\n' :: (p ++ '\n' :: fence_close_tag))) = true :=
    starts_with_chars_append_self fence_open_tag ('\n' :: (p ++ '\n' :: fence_close_tag))
  rw [show fence_wrap p = backtick_char :: (backtick_char :: backtick_char :: 'j' :: 's'
      :: 'o' :: 'n' :: '\n' :: (p ++ '\n' :: fence_close_tag)) from rfl]
  rw [find_fenced_json_cons, if_pos hsw]
  rw [show ((backtick_char :: (backtick_char :: backtick_char :: 'j' :: 's' :: 'o' :: 'n'
      :: '\n' :: (p ++ '\n' :: fence_close_tag))).drop fence_open_tag.length)
      = '\n' :: (p ++ '\n' :: fence_close_tag) from rfl]
  rw [List.dropWhile_cons, if_pos (by decide : regex_ws '\n' = true)]
  rw [htail]

theorem brace_substring_wrap (p : List Char) :
    brace_substring (fence_wrap p) = brace_substring p := by
  have h1 : (fence_wrap p).dropWhile (fun c => !(c == '{'))
      = (p ++ '\n' :: fence_close_tag).dropWhile (fun c => !(c == '{')) := by
    rw [show fence_wrap p
        = (fence_open_tag ++ ['\n']) ++ (p ++ '\n' :: fence_close_tag) from by
          simp [fence_wrap]]
    exact dropWhile_append_of_all _ _ (by decide)
  simp only [brace_substring, h1, List.dropWhile_append]
  cases hdp : p.dropWhile (fun c => !(c == '{')) with
  | nil =>
      rw [show List.dropWhile (fun c => !(c == '{')) ('\n' :: fence_close_tag)
          = [] from by decide]
      simp
  | cons d t =>
      have h2 : List.dropWhile (fun c => !(c == '}'))
            (fence_close_tag.reverse ++ '\n' :: (t.reverse ++ [d]))
          = List.dropWhile (fun c => !(c == '}')) (t.reverse ++ [d]) := by
        rw [show fence_close_tag.reverse ++ '\n' :: (t.reverse ++ [d])
            = (fence_close_tag.reverse ++ ['\n']) ++ (t.reverse ++ [d]) from by simp]
        exact dropWhile_append_of_all _ _ (by decide)
      have h3 : (d :: (t ++ '\n' :: fence_close_tag)).reverse
          = fence_close_tag.reverse ++ '\n' :: (t.reverse ++ [d]) := by
        simp
      have h4 : (d :: t).reverse = t.reverse ++ [d] := List.reverse_cons d t
      simp only [List.isEmpty_cons, Bool.false_eq_true, if_false, List.cons_append]
      rw [h3, h4, h2]

theorem brace_substring_of_core (p t_p : List Char)
    (hdp : p.dropWhile regex_ws = '{' :: t_p) (hewb : ends_with_brace t_p = true) :
    brace_substring p = some ('{' :: trim_trailing_ws t_p) := by
  have ha : p.dropWhile (fun c => !(c == '{')) = '{' :: t_p := by
    conv_lhs => rw [← List.takeWhile_append_dropWhile regex_ws p, hdp]
    rw [dropWhile_append_of_all _ _ (fun c hc => ?_), List.dropWhile_cons]
    · simp
    · have hwc : regex_ws c = true := List.mem_takeWhile_imp hc
      by_cases hcb : c = '{'
      · rw [hcb] at hwc; exact absurd hwc (by decide)
      · simp [hcb]
  obtain ⟨z, hz⟩ := (ends_with_brace_true_iff t_p).mp hewb
  have hq : t_p.reverse.dropWhile (fun c => !(c == '}')) = '}' :: z :=
    dropWhile_brace_eq_of_dropWhile_ws _ _ hz
  simp only [brace_substring, ha]
  rw [List.reverse_cons, List.dropWhile_append, hq]
  simp [List.reverse_append, trim_trailing_ws, hz]

theorem find_fenced_json_wrap_some (p t_p : List Char) (hp : backtick_char ∉ p)
    (hdp : p.dropWhile regex_ws = '{' :: t_p) (hewb : ends_with_brace t_p = true) :
    find_fenced_json (fence_wrap p) = some ('{' :: trim_trailing_ws t_p) := by
  have hbt_p : backtick_char ∉ t_p := by
    intro hm
    apply hp
    apply (List.dropWhile_sublist (l := p) regex_ws).subset
    rw [hdp]
    exact List.mem_cons_of_mem _ hm
  rw [find_fenced_json_wrap_step p hp, List.dropWhile_append, hdp]
  simp [take_fence_group_end_append_close t_p hbt_p, hewb]

theorem find_fenced_json_wrap_none_case (p : List Char) (hp : backtick_char ∉ p)
    (hno : ∀ t_p, p.dropWhile regex_ws = '{' :: t_p → ends_with_brace t_p = false) :
    find_fenced_json (fence_wrap p) = none := by
  rw [find_fenced_json_wrap_step p hp, List.dropWhile_append]
  cases hdp : p.dropWhile regex_ws with
  | nil =>
      rw [show ('\n' :: fence_close_tag).dropWhile regex_ws = fence_close_tag from by decide]
      simp
      decide
  | cons d t_p =>
      simp only [List.isEmpty_cons, Bool.false_eq_true, if_false, List.cons_append]
      by_cases hd : d = '{'
      · subst hd
        have hbt_p : backtick_char ∉ t_p := by
          intro hm
          apply hp
          apply (List.dropWhile_sublist (l := p) regex_ws).subset
          rw [hdp]
          exact List.mem_cons_of_mem _ hm
        simp [take_fence_group_end_append_close t_p hbt_p, hno t_p hdp]
      · simp [hd]

/-- Counterexample to C8 as stated: the decodable JSON payload
written as characters — an object whose string value contains a brace
followed by a space and three backticks — decodes on its own, but wrapped
in a fenced block the non-greedy group ends at the brace inside the string,
so the fenced parse returns no result while the unfenced parse succeeds. -/
theorem parse_gpt_response_fence_counterexample :
    (loads ['\x7b', '"', 'a', '"', ':', ' ', '"', '\x7d', ' ', backtick_char,
        backtick_char, backtick_char, '"', '\x7d']).isSome = true
    ∧ (parse_gpt_response ⟨[], [], [], 0⟩
        (fence_wrap ['\x7b', '"', 'a', '"', ':', ' ', '"', '\x7d', ' ', backtick_char,
          backtick_char, backtick_char, '"', '\x7d'])).isNone = true
    ∧ (parse_gpt_response ⟨[], [], [], 0⟩
        ['\x7b', '"', 'a', '"', ':', ' ', '"', '\x7d', ' ', backtick_char,
          backtick_char, backtick_char, '"', '\x7d']).isSome = true
    ∧ parse_gpt_response ⟨[], [], [], 0⟩
        (fence_wrap ['\x7b', '"', 'a', '"', ':', ' ', '"', '\x7d', ' ', backtick_char,
          backtick_char, backtick_char, '"', '\x7d'])
      ≠ parse_gpt_response ⟨[], [], [], 0⟩
        ['\x7b', '"', 'a', '"', ':', ' ', '"', '\x7d', ' ', backtick_char,
          backtick_char, backtick_char, '"', '\x7d'] := by
  refine ⟨by decide, by decide, by decide, ?_⟩
  intro h
  have h1 : (parse_gpt_response ⟨[], [], [], 0⟩
      (fence_wrap ['\x7b', '"', 'a', '"', ':', ' ', '"', '\x7d', ' ', backtick_char,
        backtick_char, backtick_char, '"', '\x7d'])).isNone = true := by decide
  have h2 : (parse_gpt_response ⟨[], [], [], 0⟩
      ['\x7b', '"', 'a', '"', ':', ' ', '"', '\x7d', ' ', backtick_char,
        backtick_char, backtick_char, '"', '\x7d']).isSome = true := by decide
  rw [h] at h1
  rw [Option.isNone_iff_eq_none] at h1
  rw [h1] at h2
  simp at h2

/-- Claim C8 (amended): for every payload containing no backtick character,
parsing the payload wrapped in a fenced code block yields the same
validated, field-defaulted result as parsing the bare payload (the
counterexample forces excluding payloads whose own text contains a brace
followed by whitespace and three backticks, which truncate the non-greedy
fence group); and the parser is total — it returns either no result
(triggering the fallback question) or a validated object, never raising. -/
theorem parse_gpt_response_fencing (d : ResponseDefaults) :
    (∀ p : List Char, backtick_char ∉ p →
      parse_gpt_response d (fence_wrap p) = parse_gpt_response d p)
    ∧ (∀ s : List Char, parse_gpt_response d s = none
        ∨ ∃ parsed, parse_gpt_response d s
            = some (.jobj (validate_and_clean_response d parsed))) := by
  constructor
  · intro p hp
    have hfindp : find_fenced_json p = none :=
      find_fenced_json_eq_none_of_no_backtick p hp
    by_cases hx : ∃ t_p, p.dropWhile regex_ws = '{' :: t_p
        ∧ ends_with_brace t_p = true
    · obtain ⟨t_p, hdp, hewb⟩ := hx
      have h1 := find_fenced_json_wrap_some p t_p hp hdp hewb
      have h2 := brace_substring_of_core p t_p hdp hewb
      unfold parse_gpt_response
      rw [h1, hfindp, h2]
    · have h1 : find_fenced_json (fence_wrap p) = none := by
        apply find_fenced_json_wrap_none_case p hp
        intro t_p hdp
        rw [Bool.eq_false_iff]
        exact fun hewb => hx ⟨t_p, hdp, hewb⟩
      unfold parse_gpt_response
      rw [h1, hfindp, brace_substring_wrap p]
  · intro s
    unfold parse_gpt_response
    split
    · split <;> first | exact Or.inr ⟨_, rfl⟩ | exact Or.inl rfl
    · split
      · split <;> first | exact Or.inr ⟨_, rfl⟩ | exact Or.inl rfl
      · exact Or.inl rfl

/-- Witness for C8 (amended), at a concrete backtick-free payload. -/
theorem parse_gpt_response_fencing_witness :
    parse_gpt_response ⟨[], [], [], 0⟩
        (fence_wrap ['\x7b', '"', 'a', '"', ':', '1', '\x7d'])
      = parse_gpt_response ⟨[], [], [], 0⟩ ['\x7b', '"', 'a', '"', ':', '1', '\x7d'] :=
  (parse_gpt_response_fencing ⟨[], [], [], 0⟩).1
    ['\x7b', '"', 'a', '"', ':', '1', '\x7d'] (by decide)

end AIHR
